import Mathlib

/-!
Verification of the brume stack-lifecycle orchestrator (src/brume/cli.py).

The CLI commands are embedded as functions producing a trace of effect
events (`Ev`) together with an optional process exit code (Python's
`exit(1)` aborts everything after it, modelled by `Option Nat`).
External collaborators are modelled as oracles:
  - `V : String → Bool` — the result of `Template.validate()` per template path;
  - `B : String → Bool` — the result of `bucket_exists` per bucket name;
  - `polls : List StackStatus` — the successive stack statuses observed by
    the event tailer, one per poll cycle.
-/

namespace Brume

/-- Stack statuses. Modelled from the spec: a fixed enumeration where the
terminal ones are the COMPLETE and FAILED variants and stack absence. -/
inductive StackStatus where
  | createInProgress
  | createComplete
  | createFailed
  | updateInProgress
  | updateComplete
  | rollbackInProgress
  | rollbackComplete
  | deleteInProgress
  | deleteComplete
  | deleteFailed
  | notFound
  deriving DecidableEq, Repr

/-- Modelled from the spec: terminal statuses end the tail loop
(COMPLETE and FAILED variants, and stack deleted or not found). -/
def isTerminal : StackStatus → Bool
  | .createComplete => true
  | .createFailed => true
  | .updateComplete => true
  | .rollbackComplete => true
  | .deleteComplete => true
  | .deleteFailed => true
  | .notFound => true
  | _ => false

/-- Observable effects of a run: local template validation and upload calls,
asset publication effects, remote stack API calls, event-tail polls. -/
inductive Ev where
  | validateT (t : String)
  | uploadT (t : String)
  | bucketProbe (b : String)
  | echo (m : String)
  | sendAssets (lp b sp : String)
  | describeStatus
  | createStack
  | updateStack
  | deleteStack
  | poll (s : StackStatus)
  | describeOutputs
  deriving DecidableEq, Repr

/-- The templates section of the configuration; local_path is optional,
cli.py reads it with a default of the empty string. -/
structure TemplatesConfig where
  local_path : Option String
  deriving DecidableEq, Repr

/-- The optional assets section of the configuration. -/
structure AssetsConfig where
  local_path : String
  s3_bucket : String
  s3_path : String
  deriving DecidableEq, Repr

/-- The configuration fields the orchestration reads: region,
stack.template_body, templates, and the optional assets section. -/
structure Config where
  region : String
  template_body : String
  templates : TemplatesConfig
  assets : Option AssetsConfig
  deriving DecidableEq, Repr

/-- Basename of a path: the part after the last separator (os.path). -/
def basenameChars (l : List Char) : List Char :=
  (l.reverse.takeWhile (fun c => c != '/')).reverse

/-- Extension of a basename following os.path.splitext: the part from the
last dot on, except that leading dots of the basename never start an
extension (splitext of a dotfile such as .bashrc has empty extension). -/
def extOfBasename (b : List Char) : List Char :=
  let r := b.reverse
  let extRev := r.takeWhile (fun c => c != '.')
  if extRev.length = r.length then []
  else if (r.drop (extRev.length + 1)).all (fun c => c == '.') then []
  else '.' :: extRev.reverse

/-- Extension (with its leading dot) of a path, as os.path.splitext. -/
def splitextExt (p : String) : String :=
  String.mk (extOfBasename (basenameChars p.data))

/-- os.path.join restricted to the shapes cli.py uses (second component is
a plain file name, never absolute). -/
def pathJoin (a b : String) : String :=
  if a.data = [] then b
  else if a.data.getLast? = some '/' then a ++ b
  else a ++ "/" ++ b

/-- Whether the glob pattern star-then-ext matches a directory entry:
the name must end with ext and, since the pattern does not start with a
dot, glob never matches hidden entries (names starting with a dot). -/
def globExtMatch (ext : String) (f : String) : Bool :=
  !(f.data.head? == some '.') && ext.data.isSuffixOf f.data

/-- Embeds collect_templates (src/brume/cli.py, lines 207 to 216): take the
extension of stack.template_body, glob the templates local_path (default
the empty string) for files matching star-then-ext, and wrap each match.
`fs` is the listing of the local_path directory. -/
def collect_templates (conf : Config) (fs : List String) : List String :=
  let ext := splitextExt conf.template_body
  (fs.filter (globExtMatch ext)).map
    (fun f => pathJoin (conf.templates.local_path.getD "") f)

/-- Embeds process_assets (src/brume/cli.py, lines 192 to 204): return
immediately when the configuration has no assets section; otherwise probe
the bucket; if it exists announce and send the assets, else announce that
the bucket does not exist (no error, no transfer). -/
def process_assets (conf : Config) (B : String → Bool) : List Ev :=
  match conf.assets with
  | none => []
  | some a =>
      Ev.bucketProbe a.s3_bucket ::
        (if B a.s3_bucket then
          [Ev.echo ("Processing assets from " ++ a.local_path ++ " to s3://"
              ++ a.s3_bucket ++ "/" ++ a.s3_path),
           Ev.sendAssets a.local_path a.s3_bucket a.s3_path]
        else
          [Ev.echo ("Bucket does not exist " ++ a.s3_bucket)])

/-- Embeds validate_and_upload (src/brume/cli.py, lines 219 to 230):
validate every collected template, exit(1) if any was invalid, otherwise
upload every template and then process the assets. -/
def validate_and_upload (conf : Config) (fs : List String)
    (V B : String → Bool) : List Ev × Option Nat :=
  let templates := collect_templates conf fs
  if templates.any (fun t => !(V t)) then
    (templates.map Ev.validateT, some 1)
  else
    (templates.map Ev.validateT ++ templates.map Ev.uploadT
      ++ process_assets conf B, none)

/-- Embeds the validate command (src/brume/cli.py, lines 164 to 174):
validate every collected template, exit(1) if any was invalid, otherwise
fall through to a normal exit (exit code 0). -/
def validateCmd (conf : Config) (fs : List String) (V : String → Bool) :
    List Ev × Nat :=
  let templates := collect_templates conf fs
  (templates.map Ev.validateT,
   if templates.any (fun t => !(V t)) then 1 else 0)

/-- Modelled from the spec: the event tailer polls the stack status and
stops as soon as a terminal status is observed (Stack.tail lives in
brume/stack.py, which is not under src/). -/
def tailEvents : List StackStatus → List Ev
  | [] => []
  | s :: rest => Ev.poll s :: (if isTerminal s then [] else tailEvents rest)

/-- Modelled from the spec: Stack.create issues the remote CreateStack
call and then tails the event stream until a terminal status
(brume/stack.py is not under src/). -/
def stackCreate (polls : List StackStatus) : List Ev :=
  Ev.createStack :: tailEvents polls

/-- Modelled from the spec: Stack.update issues the remote UpdateStack
call and then tails until a terminal status. -/
def stackUpdate (polls : List StackStatus) : List Ev :=
  Ev.updateStack :: tailEvents polls

/-- Modelled from the spec: Stack.delete issues the remote DeleteStack
call and then tails until a terminal status. -/
def stackDelete (polls : List StackStatus) : List Ev :=
  Ev.deleteStack :: tailEvents polls

/-- Modelled from the spec: create_or_update queries the remote stack
status, then creates when the stack is absent and updates when present.
`ex` is whether the stack exists. -/
def stackCreateOrUpdate (ex : Bool) (polls : List StackStatus) : List Ev :=
  Ev.describeStatus ::
    (if ex then stackUpdate polls else stackCreate polls)

/-- Modelled from the spec: Stack.outputs is a single remote describe
query reporting the outputs. -/
def stackOutputsEv : List Ev := [Ev.describeOutputs]

/-- Embeds the create command (src/brume/cli.py, lines 67 to 73):
validate_and_upload, then ctx.stack.create(). An exit inside
validate_and_upload aborts the whole command. -/
def createCmd (conf : Config) (fs : List String) (V B : String → Bool)
    (polls : List StackStatus) : List Ev × Option Nat :=
  let r := validate_and_upload conf fs V B
  match r.2 with
  | some c => (r.1, some c)
  | none => (r.1 ++ stackCreate polls, none)

/-- Embeds the update command (src/brume/cli.py, lines 75 to 80):
validate_and_upload, then ctx.stack.update(). -/
def updateCmd (conf : Config) (fs : List String) (V B : String → Bool)
    (polls : List StackStatus) : List Ev × Option Nat :=
  let r := validate_and_upload conf fs V B
  match r.2 with
  | some c => (r.1, some c)
  | none => (r.1 ++ stackUpdate polls, none)

/-- Embeds the deploy command (src/brume/cli.py, lines 83 to 89):
validate_and_upload, then ctx.stack.create_or_update(), then
ctx.stack.outputs(). -/
def deployCmd (conf : Config) (fs : List String) (V B : String → Bool)
    (ex : Bool) (polls : List StackStatus) : List Ev × Option Nat :=
  let r := validate_and_upload conf fs V B
  match r.2 with
  | some c => (r.1, some c)
  | none => (r.1 ++ stackCreateOrUpdate ex polls ++ stackOutputsEv, none)

/-- Embeds the delete command (src/brume/cli.py, lines 92 to 96):
ctx.stack.delete() with no validation beforehand. -/
def deleteCmd (polls : List StackStatus) : List Ev × Option Nat :=
  (stackDelete polls, none)

/-- Whether an event is a template validation call. -/
def Ev.isValidateEv : Ev → Bool
  | .validateT _ => true
  | _ => false

/-- Whether an event is a template upload call. -/
def Ev.isUploadEv : Ev → Bool
  | .uploadT _ => true
  | _ => false

/-- Whether an event is a remote stack-mutating call. -/
def Ev.isMutatingEv : Ev → Bool
  | .createStack => true
  | .updateStack => true
  | .deleteStack => true
  | _ => false

/-- Orchestration phase of an event: validation, template upload, asset
publication, remote transition, event tailing, output reporting. -/
def phase : Ev → Nat
  | .validateT _ => 0
  | .uploadT _ => 1
  | .bucketProbe _ => 2
  | .echo _ => 2
  | .sendAssets _ _ _ => 2
  | .describeStatus => 3
  | .createStack => 3
  | .updateStack => 3
  | .deleteStack => 3
  | .poll _ => 4
  | .describeOutputs => 5

/-- Formalises the words of the discovery claim, for comparison with the
code: every file under the configured local path whose splitext extension
equals the extension of the configured template_body, joined to the local
path. -/
def discoverBySpecExt (conf : Config) (fs : List String) : List String :=
  (fs.filter (fun f => splitextExt f == splitextExt conf.template_body)).map
    (fun f => pathJoin (conf.templates.local_path.getD "") f)

/-- The needle :stack/ used by the outputs and parameters text rendering
to detect full stack resource identifiers. -/
def stackPat : List Char := (":stack/").data

/-- Python partition: the part after the first occurrence of pat
(empty when pat does not occur). -/
def afterFirst (pat : List Char) : List Char → List Char
  | [] => []
  | c :: rest =>
      if pat.isPrefixOf (c :: rest) then (c :: rest).drop pat.length
      else afterFirst pat rest

/-- Whether pat occurs as a contiguous substring. -/
def containsSub (pat : List Char) : List Char → Bool
  | [] => pat.isEmpty
  | c :: rest => pat.isPrefixOf (c :: rest) || containsSub pat rest

/-- Embeds the stack-name shortening of the outputs and parameters text
rendering (src/brume/cli.py, lines 123 to 124 and 152 to 153): when the
identifier contains :stack/, keep only the part after the first :stack/
and before the next slash. -/
def displayName (n : String) : String :=
  if containsSub stackPat n.data then
    String.mk ((afterFirst stackPat n.data).takeWhile (fun c => c != '/'))
  else n

/-- Embeds the per-stack block of the text non-flat rendering
(src/brume/cli.py, lines 120 to 128 and 149 to 157): an empty mapping is
skipped entirely; otherwise the (shortened) stack name, one tab-indented
name = value line per entry, and a closing blank line. -/
def renderStack (n : String) (kvs : List (String × String)) : List String :=
  match kvs with
  | [] => []
  | _ =>
      displayName n
        :: (kvs.map (fun kv => "\t" ++ kv.1 ++ " = " ++ kv.2) ++ [""])

/-- Embeds the text non-flat loop shared by the outputs and parameters
commands (the two code blocks are identical): the echoed lines, stack by
stack, over the queried stack-to-mapping association. -/
def renderTextMap : List (String × List (String × String)) → List String
  | [] => []
  | (n, kvs) :: rest => renderStack n kvs ++ renderTextMap rest

lemma filter_map_eq_nil_of (f : String → Ev) (p : Ev → Bool)
    (hf : ∀ t, p (f t) = false) (l : List String) :
    (l.map f).filter p = [] := by
  rw [List.filter_eq_nil_iff]
  intro e he
  rcases List.mem_map.mp he with ⟨t, _, rfl⟩
  simp [hf t]

lemma filter_map_eq_self_of (f : String → Ev) (p : Ev → Bool)
    (hf : ∀ t, p (f t) = true) (l : List String) :
    (l.map f).filter p = l.map f := by
  rw [List.filter_eq_self]
  intro e he
  rcases List.mem_map.mp he with ⟨t, _, rfl⟩
  exact hf t

lemma mem_process_assets_shape (conf : Config) (B : String → Bool) :
    ∀ e ∈ process_assets conf B,
      phase e = 2 ∧ e.isUploadEv = false ∧ e.isValidateEv = false
        ∧ e.isMutatingEv = false := by
  intro e he
  rcases hconf : conf.assets with _ | a
  · simp [process_assets, hconf] at he
  · by_cases hb : B a.s3_bucket = true
    · simp [process_assets, hconf, hb] at he
      rcases he with rfl | rfl | rfl <;> exact ⟨rfl, rfl, rfl, rfl⟩
    · simp [process_assets, hconf, hb] at he
      rcases he with rfl | rfl <;> exact ⟨rfl, rfl, rfl, rfl⟩

lemma filter_upload_assets (conf : Config) (B : String → Bool) :
    (process_assets conf B).filter Ev.isUploadEv = [] := by
  rw [List.filter_eq_nil_iff]
  intro e he
  simp [(mem_process_assets_shape conf B e he).2.1]

lemma mem_tailEvents (polls : List StackStatus) :
    ∀ e ∈ tailEvents polls, ∃ s, e = Ev.poll s := by
  induction polls with
  | nil => intro e he; simp [tailEvents] at he
  | cons s rest ih =>
      intro e he
      simp only [tailEvents] at he
      rcases List.mem_cons.mp he with rfl | he2
      · exact ⟨s, rfl⟩
      · by_cases ht : isTerminal s = true
        · simp [ht] at he2
        · rw [if_neg ht] at he2
          exact ih e he2

lemma tailEvents_reaches_terminal (polls : List StackStatus)
    (h : ∃ s ∈ polls, isTerminal s = true) :
    ∃ (pre : List StackStatus) (s : StackStatus),
      tailEvents polls = pre.map Ev.poll ++ [Ev.poll s]
      ∧ (∀ x ∈ pre, isTerminal x = false) ∧ isTerminal s = true := by
  induction polls with
  | nil => simp at h
  | cons a rest ih =>
      by_cases ha : isTerminal a = true
      · exact ⟨[], a, by simp [tailEvents, ha], by simp, ha⟩
      · have h2 : ∃ s ∈ rest, isTerminal s = true := by
          obtain ⟨s, hs, hst⟩ := h
          rcases List.mem_cons.mp hs with rfl | hs2
          · exact absurd hst ha
          · exact ⟨s, hs2, hst⟩
        obtain ⟨pre, s, heq, hpre, hst⟩ := ih h2
        refine ⟨a :: pre, s, ?_, ?_, hst⟩
        · simp [tailEvents, ha, heq]
        · intro x hx
          rcases List.mem_cons.mp hx with rfl | hx2
          · exact Bool.eq_false_iff.mpr ha
          · exact hpre x hx2

lemma any_invalid_iff (l : List String) (V : String → Bool) :
    l.any (fun t => !(V t)) = true ↔ ∃ t ∈ l, V t = false := by
  rw [List.any_eq_true]
  constructor
  · rintro ⟨t, ht, hv⟩
    exact ⟨t, ht, by simpa using hv⟩
  · rintro ⟨t, ht, hv⟩
    exact ⟨t, ht, by simp [hv]⟩

lemma any_invalid_eq_false (l : List String) (V : String → Bool)
    (h : ∀ t ∈ l, V t = true) : l.any (fun t => !(V t)) = false := by
  rw [Bool.eq_false_iff]
  intro hc
  obtain ⟨t, ht, hv⟩ := (any_invalid_iff l V).mp hc
  rw [h t ht] at hv
  cases hv

/-- C1: validate_and_upload uploads either all templates or none — if any
template validates false, its trace contains zero upload calls; if all
validate true, its trace contains the upload of every collected template. -/
theorem validate_and_upload_all_or_nothing (conf : Config) (fs : List String)
    (V B : String → Bool) :
    ((∃ t ∈ collect_templates conf fs, V t = false) →
        (validate_and_upload conf fs V B).1.filter Ev.isUploadEv = []) ∧
    ((∀ t ∈ collect_templates conf fs, V t = true) →
        (validate_and_upload conf fs V B).1.filter Ev.isUploadEv
          = (collect_templates conf fs).map Ev.uploadT) := by
  constructor
  · intro h
    have hany := (any_invalid_iff (collect_templates conf fs) V).mpr h
    simp only [validate_and_upload, hany, if_true]
    exact filter_map_eq_nil_of _ _ (fun t => rfl) _
  · intro h
    have hany := any_invalid_eq_false (collect_templates conf fs) V h
    simp only [validate_and_upload, hany, Bool.false_eq_true, if_false,
      List.filter_append]
    rw [filter_map_eq_nil_of _ _ (fun t => rfl) _,
      filter_map_eq_self_of _ _ (fun t => rfl) _, filter_upload_assets]
    simp

/-- C1 witness: with two valid templates both get uploaded. -/
theorem validate_and_upload_all_or_nothing_witness :
    (validate_and_upload
        { region := "r", template_body := "main.yaml",
          templates := { local_path := some "tpl" }, assets := none }
        ["a.yaml", "b.yaml"] (fun _ => true) (fun _ => true)).1.filter
        Ev.isUploadEv
      = ["tpl/a.yaml", "tpl/b.yaml"].map Ev.uploadT :=
  (validate_and_upload_all_or_nothing
    { region := "r", template_body := "main.yaml",
      templates := { local_path := some "tpl" }, assets := none }
    ["a.yaml", "b.yaml"] (fun _ => true) (fun _ => true)).2 (by decide)

/-- C2: validation is never short-circuited — in the validate command and
in validate_and_upload a validation call for every collected template is
in the trace, for every validity oracle; moreover when validate_and_upload
aborts, its trace is exactly the validation of every template, so the
abort decision is taken only after all templates were evaluated. -/
theorem every_template_validated (conf : Config) (fs : List String)
    (V B : String → Bool) :
    (∀ t ∈ collect_templates conf fs,
        Ev.validateT t ∈ (validateCmd conf fs V).1)
    ∧ (∀ t ∈ collect_templates conf fs,
        Ev.validateT t ∈ (validate_and_upload conf fs V B).1)
    ∧ ((validate_and_upload conf fs V B).2 = some 1 →
        (validate_and_upload conf fs V B).1
          = (collect_templates conf fs).map Ev.validateT) := by
  refine ⟨?_, ?_, ?_⟩
  · intro t ht
    exact List.mem_map.mpr ⟨t, ht, rfl⟩
  · intro t ht
    by_cases hany :
        (collect_templates conf fs).any (fun t => !(V t)) = true
    · simp only [validate_and_upload, hany, if_true]
      exact List.mem_map.mpr ⟨t, ht, rfl⟩
    · rw [Bool.not_eq_true] at hany
      simp only [validate_and_upload, hany, Bool.false_eq_true, if_false]
      exact List.mem_append.mpr (Or.inl (List.mem_append.mpr
        (Or.inl (List.mem_map.mpr ⟨t, ht, rfl⟩))))
  · intro hexit
    by_cases hany :
        (collect_templates conf fs).any (fun t => !(V t)) = true
    · simp only [validate_and_upload, hany, if_true]
    · rw [Bool.not_eq_true] at hany
      simp only [validate_and_upload, hany, Bool.false_eq_true, if_false]
        at hexit
      cases hexit

/-- C2 witness: the second template is validated although the first is
invalid, in both the validate command and validate_and_upload. -/
theorem every_template_validated_witness :
    Ev.validateT "tpl/b.yaml" ∈ (validateCmd
        { region := "r", template_body := "main.yaml",
          templates := { local_path := some "tpl" }, assets := none }
        ["a.yaml", "b.yaml"] (fun t => t == "tpl/b.yaml")).1
    ∧ Ev.validateT "tpl/b.yaml" ∈ (validate_and_upload
        { region := "r", template_body := "main.yaml",
          templates := { local_path := some "tpl" }, assets := none }
        ["a.yaml", "b.yaml"] (fun t => t == "tpl/b.yaml")
        (fun _ => true)).1 :=
  ⟨(every_template_validated
      { region := "r", template_body := "main.yaml",
        templates := { local_path := some "tpl" }, assets := none }
      ["a.yaml", "b.yaml"] (fun t => t == "tpl/b.yaml")
      (fun _ => true)).1 "tpl/b.yaml" (by decide),
   (every_template_validated
      { region := "r", template_body := "main.yaml",
        templates := { local_path := some "tpl" }, assets := none }
      ["a.yaml", "b.yaml"] (fun t => t == "tpl/b.yaml")
      (fun _ => true)).2.1 "tpl/b.yaml" (by decide)⟩

/-- C3: when any collected template validates false, the create, update
and deploy commands exit with code 1 and their traces contain no remote
stack-mutating call at all. -/
theorem invalid_aborts_before_mutation (conf : Config) (fs : List String)
    (V B : String → Bool) (ex : Bool) (polls : List StackStatus)
    (h : ∃ t ∈ collect_templates conf fs, V t = false) :
    ((createCmd conf fs V B polls).1.filter Ev.isMutatingEv = []
        ∧ (createCmd conf fs V B polls).2 = some 1)
    ∧ ((updateCmd conf fs V B polls).1.filter Ev.isMutatingEv = []
        ∧ (updateCmd conf fs V B polls).2 = some 1)
    ∧ ((deployCmd conf fs V B ex polls).1.filter Ev.isMutatingEv = []
        ∧ (deployCmd conf fs V B ex polls).2 = some 1) := by
  have hany := (any_invalid_iff (collect_templates conf fs) V).mpr h
  have hvau : validate_and_upload conf fs V B
      = ((collect_templates conf fs).map Ev.validateT, some 1) := by
    simp only [validate_and_upload, hany, if_true]
  have hfilter : ((collect_templates conf fs).map Ev.validateT).filter
      Ev.isMutatingEv = [] := filter_map_eq_nil_of _ _ (fun t => rfl) _
  refine ⟨⟨?_, ?_⟩, ⟨?_, ?_⟩, ⟨?_, ?_⟩⟩ <;>
    simp [createCmd, updateCmd, deployCmd, hvau, hfilter]

/-- C3 witness: with an invalid template, create exits 1 and issues no
remote mutating call. -/
theorem invalid_aborts_before_mutation_witness :
    (createCmd
        { region := "r", template_body := "main.yaml",
          templates := { local_path := some "tpl" }, assets := none }
        ["a.yaml"] (fun _ => false) (fun _ => true)
        [StackStatus.createComplete]).1.filter Ev.isMutatingEv = []
    ∧ (createCmd
        { region := "r", template_body := "main.yaml",
          templates := { local_path := some "tpl" }, assets := none }
        ["a.yaml"] (fun _ => false) (fun _ => true)
        [StackStatus.createComplete]).2 = some 1 :=
  (invalid_aborts_before_mutation
    { region := "r", template_body := "main.yaml",
      templates := { local_path := some "tpl" }, assets := none }
    ["a.yaml"] (fun _ => false) (fun _ => true) true
    [StackStatus.createComplete] (by decide)).1

/-- C7: the validate command exits with code 1 exactly when some collected
template validates false, and with code 0 exactly when all validate true. -/
theorem validate_exit_code (conf : Config) (fs : List String)
    (V : String → Bool) :
    ((validateCmd conf fs V).2 = 1 ↔
        ∃ t ∈ collect_templates conf fs, V t = false)
    ∧ ((validateCmd conf fs V).2 = 0 ↔
        ∀ t ∈ collect_templates conf fs, V t = true) := by
  by_cases hany :
      (collect_templates conf fs).any (fun t => !(V t)) = true
  · have hex := (any_invalid_iff (collect_templates conf fs) V).mp hany
    constructor
    · simp only [validateCmd, hany, if_true]
      exact ⟨fun _ => hex, fun _ => trivial⟩
    · simp only [validateCmd, hany, if_true]
      constructor
      · intro h; cases h
      · intro hall
        obtain ⟨t, ht, hv⟩ := hex
        rw [hall t ht] at hv
        cases hv
  · rw [Bool.not_eq_true] at hany
    constructor
    · simp only [validateCmd, hany, Bool.false_eq_true, if_false]
      constructor
      · intro h; cases h
      · rintro ⟨t, ht, hv⟩
        have := (any_invalid_iff (collect_templates conf fs) V).mpr
          ⟨t, ht, hv⟩
        rw [hany] at this
        cases this
    · simp only [validateCmd, hany, Bool.false_eq_true, if_false]
      refine ⟨fun _ t ht => ?_, fun _ => trivial⟩
      by_cases hv : V t = true
      · exact hv
      · rw [Bool.not_eq_true] at hv
        have := (any_invalid_iff (collect_templates conf fs) V).mpr
          ⟨t, ht, hv⟩
        rw [hany] at this
        cases this

/-- C9: when the configuration has no assets section, process_assets is a
complete no-op: no bucket probe, no transfer, no output at all. -/
theorem no_assets_section_noop (conf : Config) (B : String → Bool)
    (h : conf.assets = none) : process_assets conf B = [] := by
  simp [process_assets, h]

/-- C9 witness: a concrete configuration without an assets section. -/
theorem no_assets_section_noop_witness :
    process_assets
      { region := "r", template_body := "main.yaml",
        templates := { local_path := some "tpl" }, assets := none }
      (fun _ => true) = [] :=
  no_assets_section_noop
    { region := "r", template_body := "main.yaml",
      templates := { local_path := some "tpl" }, assets := none }
    (fun _ => true) rfl

/-- C5: with an assets section present, when the bucket probe returns
false process_assets is exactly the probe plus the skip message — no
transfer, no error; when the probe returns true it is the probe, the
processing message and the recursive asset transfer. -/
theorem assets_skip_or_publish (conf : Config) (B : String → Bool)
    (a : AssetsConfig) (h : conf.assets = some a) :
    (B a.s3_bucket = false →
        process_assets conf B
          = [Ev.bucketProbe a.s3_bucket,
             Ev.echo ("Bucket does not exist " ++ a.s3_bucket)]) ∧
    (B a.s3_bucket = true →
        process_assets conf B
          = [Ev.bucketProbe a.s3_bucket,
             Ev.echo ("Processing assets from " ++ a.local_path
               ++ " to s3://" ++ a.s3_bucket ++ "/" ++ a.s3_path),
             Ev.sendAssets a.local_path a.s3_bucket a.s3_path]) := by
  constructor <;> intro hb <;> simp [process_assets, h, hb]

/-- C5 witness: missing bucket gives the skip trace at a concrete
configuration. -/
theorem assets_skip_or_publish_witness :
    process_assets
      { region := "r", template_body := "main.yaml",
        templates := { local_path := some "tpl" },
        assets := some { local_path := "assets", s3_bucket := "bkt",
                         s3_path := "pre" } }
      (fun _ => false)
      = [Ev.bucketProbe "bkt", Ev.echo ("Bucket does not exist " ++ "bkt")] :=
  (assets_skip_or_publish
    { region := "r", template_body := "main.yaml",
      templates := { local_path := some "tpl" },
      assets := some { local_path := "assets", s3_bucket := "bkt",
                       s3_path := "pre" } }
    (fun _ => false)
    { local_path := "assets", s3_bucket := "bkt", s3_path := "pre" }
    rfl).1 rfl

/-- C4: under valid templates and a poll sequence that eventually shows a
terminal status, the create, update and delete commands issue their remote
state-transition call and then tail: the trace continues with exactly the
tail events, and the tail runs through non-terminal statuses up to and
including the first terminal one. -/
theorem remote_call_then_tail (conf : Config) (fs : List String)
    (V B : String → Bool) (polls : List StackStatus)
    (hv : ∀ t ∈ collect_templates conf fs, V t = true)
    (ht : ∃ s ∈ polls, isTerminal s = true) :
    (∃ pre, (createCmd conf fs V B polls).1
        = pre ++ Ev.createStack :: tailEvents polls)
    ∧ (∃ pre, (updateCmd conf fs V B polls).1
        = pre ++ Ev.updateStack :: tailEvents polls)
    ∧ (deleteCmd polls).1 = Ev.deleteStack :: tailEvents polls
    ∧ ∃ (pre : List StackStatus) (s : StackStatus),
        tailEvents polls = pre.map Ev.poll ++ [Ev.poll s]
          ∧ (∀ x ∈ pre, isTerminal x = false) ∧ isTerminal s = true := by
  have hany := any_invalid_eq_false (collect_templates conf fs) V hv
  have hvau : validate_and_upload conf fs V B
      = ((collect_templates conf fs).map Ev.validateT
          ++ (collect_templates conf fs).map Ev.uploadT
          ++ process_assets conf B, none) := by
    simp only [validate_and_upload, hany, Bool.false_eq_true, if_false]
  refine ⟨?_, ?_, rfl, tailEvents_reaches_terminal polls ht⟩
  · refine ⟨(collect_templates conf fs).map Ev.validateT
      ++ (collect_templates conf fs).map Ev.uploadT
      ++ process_assets conf B, ?_⟩
    simp [createCmd, hvau, stackCreate]
  · refine ⟨(collect_templates conf fs).map Ev.validateT
      ++ (collect_templates conf fs).map Ev.uploadT
      ++ process_assets conf B, ?_⟩
    simp [updateCmd, hvau, stackUpdate]

/-- C4 witness: delete at a one-poll terminal sequence. -/
theorem remote_call_then_tail_witness :
    (deleteCmd [StackStatus.deleteComplete]).1
      = Ev.deleteStack :: tailEvents [StackStatus.deleteComplete] :=
  (remote_call_then_tail
    { region := "r", template_body := "main.yaml",
      templates := { local_path := some "tpl" }, assets := none }
    [] (fun _ => true) (fun _ => true)
    [StackStatus.deleteComplete] (by decide)
    ⟨StackStatus.deleteComplete, by decide, by decide⟩).2.2.1

lemma phase_le_of_mem_tail (polls : List StackStatus) :
    ∀ e ∈ tailEvents polls, phase e = 4 := by
  intro e he
  rcases mem_tailEvents polls e he with ⟨s, rfl⟩
  rfl

lemma mem_stackCreateOrUpdate_phase (ex : Bool) (polls : List StackStatus) :
    ∀ e ∈ stackCreateOrUpdate ex polls, 3 ≤ phase e ∧ phase e ≤ 4 := by
  intro e he
  simp only [stackCreateOrUpdate] at he
  rcases List.mem_cons.mp he with rfl | he2
  · exact ⟨le_refl 3, by decide⟩
  · cases ex
    · simp only [Bool.false_eq_true, if_false, stackCreate] at he2
      rcases List.mem_cons.mp he2 with rfl | he3
      · exact ⟨le_refl 3, by decide⟩
      · rw [phase_le_of_mem_tail polls e he3]
        exact ⟨by norm_num, le_refl 4⟩
    · simp only [if_true, stackUpdate] at he2
      rcases List.mem_cons.mp he2 with rfl | he3
      · exact ⟨le_refl 3, by decide⟩
      · rw [phase_le_of_mem_tail polls e he3]
        exact ⟨by norm_num, le_refl 4⟩

lemma sorted_const_phase (l : List Ev) (c : Nat)
    (h : ∀ x ∈ l, phase x = c) :
    List.Sorted (fun a b => a ≤ b) (l.map phase) := by
  induction l with
  | nil => simp
  | cons a l ih =>
      rw [List.map_cons, List.sorted_cons]
      refine ⟨?_, ih (fun x hx => h x (List.mem_cons_of_mem a hx))⟩
      intro b hb
      rcases List.mem_map.mp hb with ⟨y, hy, rfl⟩
      rw [h a (List.mem_cons_self a l), h y (List.mem_cons_of_mem a hy)]

lemma sorted_phase_append {A C : List Ev}
    (hA : List.Sorted (fun a b => a ≤ b) (A.map phase))
    (hC : List.Sorted (fun a b => a ≤ b) (C.map phase))
    (h : ∀ x ∈ A, ∀ y ∈ C, phase x ≤ phase y) :
    List.Sorted (fun a b => a ≤ b) ((A ++ C).map phase) := by
  rw [List.map_append]
  rw [List.Sorted] at hA hC ⊢
  rw [List.pairwise_append]
  refine ⟨hA, hC, ?_⟩
  intro a ha b hb
  rcases List.mem_map.mp ha with ⟨x, hx, rfl⟩
  rcases List.mem_map.mp hb with ⟨y, hy, rfl⟩
  exact h x hx y hy

lemma sorted_stackCreateOrUpdate (ex : Bool) (polls : List StackStatus) :
    List.Sorted (fun a b => a ≤ b)
      ((stackCreateOrUpdate ex polls).map phase) := by
  have htail : List.Sorted (fun a b => a ≤ b)
      ((tailEvents polls).map phase) :=
    sorted_const_phase _ 4 (phase_le_of_mem_tail polls)
  have hcons : ∀ t : Ev, phase t = 3 → ∀ l : List Ev,
      List.Sorted (fun a b => a ≤ b) (l.map phase) →
      (∀ x ∈ l, 3 ≤ phase x) →
      List.Sorted (fun a b => a ≤ b) ((t :: l).map phase) := by
    intro t hpt l hl hge
    rw [List.map_cons, List.sorted_cons]
    refine ⟨?_, hl⟩
    intro b hb
    rcases List.mem_map.mp hb with ⟨y, hy, rfl⟩
    rw [hpt]
    exact hge y hy
  cases ex
  · simp only [stackCreateOrUpdate, Bool.false_eq_true, if_false,
      stackCreate]
    refine hcons Ev.describeStatus rfl _
      (hcons Ev.createStack rfl _ htail ?_) ?_
    · intro x hx
      rw [phase_le_of_mem_tail polls x hx]
      norm_num
    · intro x hx
      rcases List.mem_cons.mp hx with rfl | hx2
      · exact le_refl 3
      · rw [phase_le_of_mem_tail polls x hx2]
        norm_num
  · simp only [stackCreateOrUpdate, if_true, stackUpdate]
    refine hcons Ev.describeStatus rfl _
      (hcons Ev.updateStack rfl _ htail ?_) ?_
    · intro x hx
      rw [phase_le_of_mem_tail polls x hx]
      norm_num
    · intro x hx
      rcases List.mem_cons.mp hx with rfl | hx2
      · exact le_refl 3
      · rw [phase_le_of_mem_tail polls x hx2]
        norm_num

/-- C6: the deploy run performs its sub-calls in the fixed order validate
all templates, upload all templates, publish assets, remote transition,
tail events, report outputs: its trace is exactly that concatenation, and
the orchestration phase of the events is monotonically non-decreasing
along the trace — so in particular no upload precedes a validation and no
asset publication precedes the uploads. -/
theorem deploy_fixed_order (conf : Config) (fs : List String)
    (V B : String → Bool) (ex : Bool) (polls : List StackStatus)
    (hv : ∀ t ∈ collect_templates conf fs, V t = true) :
    (deployCmd conf fs V B ex polls).1
      = (collect_templates conf fs).map Ev.validateT
        ++ ((collect_templates conf fs).map Ev.uploadT
        ++ (process_assets conf B
        ++ (Ev.describeStatus
            :: (if ex then Ev.updateStack else Ev.createStack)
            :: (tailEvents polls ++ [Ev.describeOutputs]))))
    ∧ List.Sorted (fun a b => a ≤ b)
        ((deployCmd conf fs V B ex polls).1.map phase) := by
  have hany := any_invalid_eq_false (collect_templates conf fs) V hv
  have hvau : validate_and_upload conf fs V B
      = ((collect_templates conf fs).map Ev.validateT
          ++ (collect_templates conf fs).map Ev.uploadT
          ++ process_assets conf B, none) := by
    simp only [validate_and_upload, hany, Bool.false_eq_true, if_false]
  have htr : (deployCmd conf fs V B ex polls).1
      = (collect_templates conf fs).map Ev.validateT
        ++ ((collect_templates conf fs).map Ev.uploadT
        ++ (process_assets conf B
        ++ (stackCreateOrUpdate ex polls ++ stackOutputsEv))) := by
    simp [deployCmd, hvau, List.append_assoc]
  constructor
  · rw [htr]
    cases ex <;>
      simp [stackCreateOrUpdate, stackUpdate, stackCreate, stackOutputsEv]
  · rw [htr]
    have h5 : List.Sorted (fun a b => a ≤ b)
        ((stackCreateOrUpdate ex polls ++ stackOutputsEv).map phase) := by
      refine sorted_phase_append (sorted_stackCreateOrUpdate ex polls)
        (sorted_const_phase _ 5 ?_) ?_
      · intro x hx
        rcases List.mem_singleton.mp hx with rfl
        rfl
      · intro x hx y hy
        rcases List.mem_singleton.mp hy with rfl
        exact le_trans (mem_stackCreateOrUpdate_phase ex polls x hx).2
          (by decide)
    have h4 : List.Sorted (fun a b => a ≤ b)
        ((process_assets conf B
          ++ (stackCreateOrUpdate ex polls ++ stackOutputsEv)).map phase) := by
      refine sorted_phase_append
        (sorted_const_phase _ 2
          (fun x hx => (mem_process_assets_shape conf B x hx).1)) h5 ?_
      intro x hx y hy
      rw [(mem_process_assets_shape conf B x hx).1]
      rcases List.mem_append.mp hy with hy2 | hy2
      · exact le_trans (by norm_num)
          (mem_stackCreateOrUpdate_phase ex polls y hy2).1
      · rcases List.mem_singleton.mp hy2 with rfl
        decide
    have h3 : List.Sorted (fun a b => a ≤ b)
        (((collect_templates conf fs).map Ev.uploadT
          ++ (process_assets conf B
          ++ (stackCreateOrUpdate ex polls ++ stackOutputsEv))).map phase) := by
      refine sorted_phase_append
        (sorted_const_phase _ 1 ?_) h4 ?_
      · intro x hx
        rcases List.mem_map.mp hx with ⟨t, _, rfl⟩
        rfl
      · intro x hx y hy
        rcases List.mem_map.mp hx with ⟨t, _, rfl⟩
        show 1 ≤ phase y
        rcases List.mem_append.mp hy with hy2 | hy2
        · rw [(mem_process_assets_shape conf B y hy2).1]; norm_num
        · rcases List.mem_append.mp hy2 with hy3 | hy3
          · exact le_trans (by norm_num)
              (mem_stackCreateOrUpdate_phase ex polls y hy3).1
          · rcases List.mem_singleton.mp hy3 with rfl
            decide
    refine sorted_phase_append (sorted_const_phase _ 0 ?_) h3 ?_
    · intro x hx
      rcases List.mem_map.mp hx with ⟨t, _, rfl⟩
      rfl
    · intro x hx y hy
      rcases List.mem_map.mp hx with ⟨t, _, rfl⟩
      show 0 ≤ phase y
      exact Nat.zero_le _

/-- C6 witness: a concrete deploy trace has monotone phases. -/
theorem deploy_fixed_order_witness :
    List.Sorted (fun a b => a ≤ b)
      ((deployCmd
          { region := "r", template_body := "main.yaml",
            templates := { local_path := some "tpl" }, assets := none }
          ["a.yaml"] (fun _ => true) (fun _ => true) true
          [StackStatus.updateInProgress, StackStatus.updateComplete]).1.map
        phase) :=
  (deploy_fixed_order
    { region := "r", template_body := "main.yaml",
      templates := { local_path := some "tpl" }, assets := none }
    ["a.yaml"] (fun _ => true) (fun _ => true) true
    [StackStatus.updateInProgress, StackStatus.updateComplete]
    (by decide)).2

/-- C8 counterexample: a hidden file whose splitext extension matches the
configured template format is not returned by collect_templates, because
the glob pattern star-then-ext does not start with a dot and so never
matches names starting with a dot. -/
theorem collect_templates_ne_spec_discovery :
    collect_templates
        { region := "r", template_body := "main.yaml",
          templates := { local_path := some "tpl" }, assets := none }
        [".hidden.yaml"]
      ≠ discoverBySpecExt
        { region := "r", template_body := "main.yaml",
          templates := { local_path := some "tpl" }, assets := none }
        [".hidden.yaml"] := by decide

/-- C8 (amended): collect_templates returns exactly the non-hidden
entries (name not starting with a dot) of the configured local path whose
name ends with the extension of the configured template_body, each joined
to the local path; and it returns the empty list — not an error — when no
entry matches. -/
theorem collect_templates_charact (conf : Config) (fs : List String)
    (p : String) :
    (p ∈ collect_templates conf fs ↔
      ∃ f ∈ fs, p = pathJoin (conf.templates.local_path.getD "") f
        ∧ f.data.head? ≠ some '.'
        ∧ (splitextExt conf.template_body).data.isSuffixOf f.data = true)
    ∧ ((∀ f ∈ fs, globExtMatch (splitextExt conf.template_body) f = false) →
        collect_templates conf fs = []) := by
  constructor
  · constructor
    · intro hp
      simp only [collect_templates, List.mem_map, List.mem_filter] at hp
      obtain ⟨f, ⟨hf, hg⟩, rfl⟩ := hp
      simp only [globExtMatch, Bool.and_eq_true, Bool.not_eq_true',
        beq_eq_false_iff_ne] at hg
      exact ⟨f, hf, rfl, hg.1, hg.2⟩
    · rintro ⟨f, hf, rfl, hhead, hsuf⟩
      simp only [collect_templates, List.mem_map, List.mem_filter]
      refine ⟨f, ⟨hf, ?_⟩, rfl⟩
      simp only [globExtMatch, Bool.and_eq_true, Bool.not_eq_true',
        beq_eq_false_iff_ne]
      exact ⟨hhead, hsuf⟩
  · intro hnone
    simp only [collect_templates]
    rw [List.filter_eq_nil_iff.mpr (fun f hf => by simp [hnone f hf])]
    rfl

/-- C8 witness: with template_body main.yaml the matching file is
returned, joined to the local path. -/
theorem collect_templates_charact_witness :
    "tpl/a.yaml" ∈ collect_templates
      { region := "r", template_body := "main.yaml",
        templates := { local_path := some "tpl" }, assets := none }
      ["a.yaml", "b.json"] :=
  (collect_templates_charact
    { region := "r", template_body := "main.yaml",
      templates := { local_path := some "tpl" }, assets := none }
    ["a.yaml", "b.json"] "tpl/a.yaml").1.mpr
    ⟨"a.yaml", by decide, by decide, by decide, by decide⟩

lemma isPrefixOf_append_self (l t : List Char) :
    l.isPrefixOf (l ++ t) = true := by
  rw [List.isPrefixOf_iff_prefix]
  exact List.prefix_append l t

lemma containsSub_at_occurrence (pat : List Char) (hne : pat ≠ [])
    (p t : List Char) : containsSub pat (p ++ (pat ++ t)) = true := by
  induction p with
  | nil =>
      rw [List.nil_append]
      cases pat with
      | nil => exact absurd rfl hne
      | cons c cs =>
          rw [List.cons_append]
          simp only [containsSub, Bool.or_eq_true]
          left
          rw [← List.cons_append]
          exact isPrefixOf_append_self (c :: cs) t
  | cons a p ih =>
      rw [List.cons_append]
      simp only [containsSub, Bool.or_eq_true]
      right
      exact ih

lemma afterFirst_at_occurrence (pat : List Char) (hne : pat ≠ []) :
    ∀ (p t : List Char),
      (∀ i < p.length, pat.isPrefixOf ((p ++ (pat ++ t)).drop i) = false) →
      afterFirst pat (p ++ (pat ++ t)) = t := by
  intro p
  induction p with
  | nil =>
      intro t _
      rw [List.nil_append]
      cases pat with
      | nil => exact absurd rfl hne
      | cons c cs =>
          have hpre : (c :: cs).isPrefixOf (c :: (cs ++ t)) = true := by
            rw [← List.cons_append]
            exact isPrefixOf_append_self (c :: cs) t
          rw [List.cons_append]
          simp only [afterFirst, hpre, if_true]
          rw [← List.cons_append]
          exact List.drop_left (c :: cs) t
  | cons a p ih =>
      intro t h
      have h0 := h 0 (Nat.succ_pos p.length)
      rw [List.drop_zero] at h0
      rw [List.cons_append] at h0 ⊢
      simp only [afterFirst, h0, Bool.false_eq_true, if_false]
      refine ih t ?_
      intro i hi
      have := h (i + 1) (Nat.succ_lt_succ hi)
      rw [List.cons_append, List.drop_succ_cons] at this
      exact this

lemma takeWhile_until_slash (s r : List Char) (h : '/' ∉ s) :
    (s ++ '/' :: r).takeWhile (fun c => c != '/') = s := by
  induction s with
  | nil => simp
  | cons a s ih =>
      have ha : (a != '/') = true := by
        simp only [bne_iff_ne]
        intro hc
        exact h (hc ▸ List.mem_cons_self a s)
      have h2 : '/' ∉ s := fun hc => h (List.mem_cons_of_mem a hc)
      simp [List.takeWhile_cons, ha, ih h2]

lemma displayName_of_occurrence (p s r : List Char) (n : String)
    (hn : n.data = p ++ (stackPat ++ (s ++ '/' :: r)))
    (hfirst : ∀ i < p.length, stackPat.isPrefixOf (n.data.drop i) = false)
    (hs : '/' ∉ s) : displayName n = String.mk s := by
  have hne : stackPat ≠ [] := by decide
  have hc : containsSub stackPat n.data = true := by
    rw [hn]
    exact containsSub_at_occurrence stackPat hne p (s ++ '/' :: r)
  have ha : afterFirst stackPat n.data = s ++ '/' :: r := by
    rw [hn]
    refine afterFirst_at_occurrence stackPat hne p (s ++ '/' :: r) ?_
    intro i hi
    have := hfirst i hi
    rw [hn] at this
    exact this
  simp only [displayName, hc, if_true]
  rw [ha, takeWhile_until_slash s r hs]

/-- C10: in the text non-flat rendering shared by the outputs and
parameters commands, a stack with an empty key-to-value mapping is
omitted from the output entirely, and a stack identifier containing the
substring :stack/ is rendered as only the segment between the first
:stack/ and the next slash rather than the full identifier. -/
theorem renderText_omits_empty_and_shortens :
    (∀ (xs ys : List (String × List (String × String))) (n : String),
        renderTextMap (xs ++ (n, ([] : List (String × String))) :: ys)
          = renderTextMap (xs ++ ys))
    ∧ (∀ (p s r : List Char) (n : String) (kvs : List (String × String))
        (rest : List (String × List (String × String))),
        n.data = p ++ (stackPat ++ (s ++ '/' :: r)) →
        (∀ i < p.length, stackPat.isPrefixOf (n.data.drop i) = false) →
        '/' ∉ s → kvs ≠ [] →
        (renderTextMap ((n, kvs) :: rest)).head? = some (String.mk s)) := by
  constructor
  · intro xs ys n
    induction xs with
    | nil => simp [renderTextMap, renderStack]
    | cons a xs ih =>
        rcases a with ⟨m, kvs⟩
        rw [List.cons_append, List.cons_append]
        simp only [renderTextMap]
        rw [ih]
  · intro p s r n kvs rest hn hfirst hs hkvs
    cases kvs with
    | nil => exact absurd rfl hkvs
    | cons kv kvs =>
        simp only [renderTextMap, renderStack]
        rw [displayName_of_occurrence p s r n hn hfirst hs]
        rfl

/-- C10 witness: the empty-mapping stack is dropped and the identifier is
shortened to the segment after :stack/ at concrete inputs. -/
theorem renderText_omits_empty_and_shortens_witness :
    renderTextMap [("a", [("k", "v")]), ("b", []), ("c", [("x", "y")])]
        = renderTextMap [("a", [("k", "v")]), ("c", [("x", "y")])]
    ∧ (renderTextMap
        [("arn:aws:cloudformation:eu:1:stack/web/id", [("k", "v")])]).head?
        = some (String.mk ("web").data) :=
  ⟨renderText_omits_empty_and_shortens.1 [("a", [("k", "v")])]
      [("c", [("x", "y")])] "b",
   renderText_omits_empty_and_shortens.2
      ("arn:aws:cloudformation:eu:1").data ("web").data ("id").data
      "arn:aws:cloudformation:eu:1:stack/web/id" [("k", "v")] []
      (by decide) (by decide) (by decide) (by decide)⟩

end Brume
